import Mathlib

/-!
Verification of the exam-proctoring voice agent (`agent.py`, `handlers.py`,
`exam_state.py`, `exam_db_driver.py`, `transcript.py`, `utils.py`,
`prompts.py`) against its specification.

The source is embedded shallowly: each Python function becomes a Lean
function on explicit state; effects (speech, transcript persistence, data
channel messages, pacing delays, chat-context appends) become a list of
`Effect` values; an uncaught Python exception escaping a handler is modelled
by the `exn` field of `HandlerResult`.  Logging calls are effect-free and
are not modelled.  MongoDB collections are modelled as in-memory lists of
documents.
-/

/-- The apostrophe character, used inside several source string literals. -/
def apos : String := String.singleton (Char.ofNat 39)

/-- Boolean prefix test on character lists. -/
def charsPrefix : List Char → List Char → Bool
  | [], _ => true
  | _ :: _, [] => false
  | a :: as, b :: bs => a == b && charsPrefix as bs

/-- Boolean contiguous-sublist test on character lists (substring search). -/
def charsSub (needle : List Char) : List Char → Bool
  | [] => charsPrefix needle []
  | c :: t => charsPrefix needle (c :: t) || charsSub needle t

/-- Python `phrase in message.lower()`: case-insensitive substring
containment of an (already lower-case) phrase in a message; `lower()` is
per-character lowering. -/
def phraseIn (phrase msg : String) : Bool :=
  charsSub phrase.data (msg.data.map Char.toLower)

/-- Python truthiness of an optional string: `None` and `""` are falsy. -/
def truthy : Option String → Bool
  | none => false
  | some m => !(m == "")

/-- `agent.py` / `handlers.py`: exam-termination phrases. -/
def terminationPhrases : List String :=
  ["end exam", "finish exam", "stop exam", "exit exam", "quit exam",
   "terminate exam"]

/-- `agent.py` line 314: phrases indicating the student does not know. -/
def dontKnowPhrases : List String :=
  ["i don" ++ apos ++ "t know", "don" ++ apos ++ "t know", "no idea",
   "not sure", "i" ++ apos ++ "m not sure", "i am not sure",
   "i have no idea"]

/-- `agent.py` line 302: affirmative phrases for the another-chance offer. -/
def anotherChancePhrases : List String :=
  ["yes", "yeah", "sure", "okay", "please", "give me another chance"]

/-- `handlers.py` line 228: phrases confirming readiness for the next
question. -/
def confirmationPhrases : List String :=
  ["yes", "yeah", "sure", "okay", "ok", "ready", "next"]

/-- `last_user_message and any(phrase in last_user_message.lower() ...)`. -/
def matchesAny (last : Option String) (phrases : List String) : Bool :=
  truthy last && phrases.any (fun p => phraseIn p (last.getD ""))

/-- `exam_models.ExamQuestion`.  Modelled from the spec: `exam_models.py`
is not among the provided source files; §3 of the spec gives
`ExamQuestion = \x7b text, answer?, difficulty? \x7d` and
`exam_db_driver.py` constructs it with keyword arguments
`text`, `answer`, `difficulty`. -/
structure ExamQuestion where
  text : String
  answer : String := ""
  difficulty : String := "medium"
deriving Repr, DecidableEq

/-- `exam_models.Exam`.  Modelled from the spec: `exam_models.py` is not
among the provided source files; §3 of the spec gives
`Exam = \x7b id, name, description?, questions, duration?, difficulty? \x7d`,
and the code constructs it sometimes without `description` and sometimes
without `duration`/`difficulty`, so those carry defaults. -/
structure Exam where
  exam_id : String
  name : String
  description : String := ""
  questions : List ExamQuestion
  duration : Option Nat := none
  difficulty : Option String := none
deriving Repr, DecidableEq

/-- `exam_state.ExamState.__init__` (the superset of the fields of
`exam_state.py` and of the inline variant in `agent.py`; the latter simply
never touches `waiting_for_next_question_confirmation`). -/
structure ExamState where
  exam : Option Exam := none
  current_question_idx : Nat := 0
  questions_asked : Nat := 0
  data_received : Bool := false
  exam_completed : Bool := false
  needs_another_chance : Bool := false
  waiting_for_another_chance_response : Bool := false
  waiting_for_next_question_confirmation : Bool := false
  current_question : Option String := none
deriving Repr, DecidableEq

/-- The fresh session state built at session start. -/
def initialExamState : ExamState := {}

/-- Observable actions a handler performs, in order.  `say` carries the
spoken text (`none` models speaking Python `None`) and the
`allow_interruptions` flag.  `saveTranscript` records an invocation of the
transcript-persistence path for the given exam id.  `dataMessage` is the
`EXAM_COMPLETED` structured message.  Logging is effect-free and omitted. -/
inductive Effect where
  | say (text : Option String) (allowInterruptions : Bool)
  | saveTranscript (examId : String)
  | dataMessage (examId : String)
  | sleepMs (ms : Nat)
  | appendCtx (text : String)
deriving Repr, DecidableEq

/-- The closing statement spoken by the completion branch. -/
def closingLine (e : Exam) : String :=
  "Thank you for completing the " ++ e.name ++
  " exam. This concludes our session. You" ++ apos ++ "ve answered all " ++
  toString e.questions.length ++ " questions. Good luck with your results!"

/-- The `"Question \x7bindex+1\x7d: \x7btext\x7d"` prompt format. -/
def questionPrompt (idx : Nat) (text : String) : String :=
  "Question " ++ toString (idx + 1) ++ ": " ++ text

/-- `handlers.py::ask_next_question` (lines 10–72): guard chain, the
another-chance re-ask, the normal advance, and the completion branch
(which also sends the `EXAM_COMPLETED` data message). -/
def ask_next_question (s : ExamState) : ExamState × List Effect :=
  if !s.data_received then (s, [])
  else
    match s.exam with
    | none => (s, [.say (some "Exam data was invalid. Please try again.") false])
    | some exam =>
      if s.exam_completed then (s, [])
      else if s.waiting_for_another_chance_response then (s, [])
      else if s.needs_another_chance then
        ({ s with needs_another_chance := false },
         [.say s.current_question true])
      else if h : s.current_question_idx < exam.questions.length then
        let question := (exam.questions.get ⟨s.current_question_idx, h⟩).text
        let prompt := questionPrompt s.current_question_idx question
        ({ s with questions_asked := s.questions_asked + 1,
                  current_question := some prompt,
                  current_question_idx := s.current_question_idx + 1 },
         [.say (some prompt) true])
      else
        ({ s with exam_completed := true },
         [.saveTranscript exam.exam_id, .dataMessage exam.exam_id,
          .say (some (closingLine exam)) false])

/-- `agent.py::ask_next_question` (lines 75–152): identical state logic to
the `handlers.py` variant, but its completion branch saves the transcript
inline and sends no `EXAM_COMPLETED` data message. -/
def ask_next_question_agent (s : ExamState) : ExamState × List Effect :=
  if !s.data_received then (s, [])
  else
    match s.exam with
    | none => (s, [.say (some "Exam data was invalid. Please try again.") false])
    | some exam =>
      if s.exam_completed then (s, [])
      else if s.waiting_for_another_chance_response then (s, [])
      else if s.needs_another_chance then
        ({ s with needs_another_chance := false },
         [.say s.current_question true])
      else if h : s.current_question_idx < exam.questions.length then
        let question := (exam.questions.get ⟨s.current_question_idx, h⟩).text
        let prompt := questionPrompt s.current_question_idx question
        ({ s with questions_asked := s.questions_asked + 1,
                  current_question := some prompt,
                  current_question_idx := s.current_question_idx + 1 },
         [.say (some prompt) true])
      else
        ({ s with exam_completed := true },
         [.saveTranscript exam.exam_id,
          .say (some (closingLine exam)) false])

/-- One dialog turn of the agent's chat context (`llm.ChatMessage`).
`content` is present exactly when the Python object has a `content`
attribute; `text` is the fallback attribute; `timestamp` is absent when the
object carries none (Python `getattr(message, "timestamp", None)`). -/
structure ChatMessage where
  role : String
  content : Option String := none
  text : String := ""
  timestamp : Option Nat := none
deriving Repr, DecidableEq

/-- `message.content if hasattr(message, "content") else message.text`. -/
def contentOf (m : ChatMessage) : String := m.content.getD m.text

/-- `handlers.py` lines 209–213: backward search of the chat context for
the last user turn; when none is found the passed-in parameter is kept. -/
def lastUserMessageH (msgs : List ChatMessage) (param : Option String) :
    Option String :=
  match msgs.reverse.find? (fun m => m.role == "user") with
  | some m => some (contentOf m)
  | none => param

/-- `agent.py` lines 289–293: same backward search, reading `.text` and
starting from `None`. -/
def lastUserMessageA (msgs : List ChatMessage) : Option String :=
  (msgs.reverse.find? (fun m => m.role == "user")).map (fun m => m.text)

/-- Result of running one event handler: the state it leaves behind, the
effects it performed, and — when an exception escapes the handler
uncaught — the exception, with state mutations made before the raise
already applied. -/
structure HandlerResult where
  state : ExamState
  effects : List Effect
  exn : Option String := none
deriving Repr, DecidableEq

/-- The acknowledgment spoken on an explicit exam termination. -/
def endAck : String :=
  "Thank you for completing the exam. I" ++ apos ++
  "ll save your responses now."

/-- `handlers.py::on_user_speech_committed` (lines 198–233), taking the
resolved last user message (the result of `lastUserMessageH`).  The
termination branch speaks, sets `exam_completed`, then evaluates
`exam_state.exam.exam_id`; when `exam` is `None` that attribute access
raises `AttributeError` out of the handler, after the mutation. -/
def on_user_speech_committed (s : ExamState) (last : Option String) :
    HandlerResult :=
  if matchesAny last terminationPhrases then
    match s.exam with
    | some e =>
      { state := { s with exam_completed := true },
        effects := [.say (some endAck) false, .saveTranscript e.exam_id] }
    | none =>
      { state := { s with exam_completed := true },
        effects := [.say (some endAck) false],
        exn := some "AttributeError" }
  else if s.waiting_for_next_question_confirmation then
    if matchesAny last confirmationPhrases then
      let r := ask_next_question
        { s with waiting_for_next_question_confirmation := false }
      { state := r.1, effects := r.2 }
    else
      { state := s,
        effects := [.say (some ("Let me know when you" ++ apos ++
          "re ready to continue to the next question.")) true] }
  else { state := s, effects := [] }

/-- `agent.py` lines 322–325: the shared tail of the utterance handler —
pacing delay, then ask the next question unless the exam is completed. -/
def normalAdvanceAgent (s : ExamState) : ExamState × List Effect :=
  if s.exam_completed then (s, [.sleepMs 1500])
  else
    let r := ask_next_question_agent s
    (r.1, .sleepMs 1500 :: r.2)

/-- `agent.py::on_user_speech_committed` (lines 285–325), taking the
resolved last user message (the result of `lastUserMessageA`).  This
variant has no termination-phrase branch; it owns the another-chance
sub-dialog. -/
def on_user_speech_committed_agent (s : ExamState) (last : Option String) :
    ExamState × List Effect :=
  if s.waiting_for_another_chance_response && truthy last then
    let s1 := { s with waiting_for_another_chance_response := false }
    if matchesAny last anotherChancePhrases then
      let r := ask_next_question_agent { s1 with needs_another_chance := true }
      (r.1, .sleepMs 1000 :: r.2)
    else
      normalAdvanceAgent { s1 with needs_another_chance := false }
  else if matchesAny last dontKnowPhrases then
    ({ s with waiting_for_another_chance_response := true },
     [.say (some "Would you like another chance to answer this question?")
        true])
  else normalAdvanceAgent s

/-- `utils.py::on_participant_disconnected` (lines 21–26): schedules the
transcript save; the argument `exam_state.exam.exam_id` is evaluated in the
handler itself and raises `AttributeError` when `exam` is `None`. -/
def on_participant_disconnected (s : ExamState) : HandlerResult :=
  match s.exam with
  | some e => { state := s, effects := [.saveTranscript e.exam_id] }
  | none => { state := s, effects := [], exn := some "AttributeError" }


/-- `bson.ObjectId.is_valid` on a string: exactly 24 hexadecimal digits. -/
def isHexChar (c : Char) : Bool :=
  c.isDigit || (97 ≤ c.toNat && c.toNat ≤ 102) ||
    (65 ≤ c.toNat && c.toNat ≤ 70)

/-- Validity of a MongoDB ObjectId given as a string. -/
def objectIdValid (s : String) : Bool :=
  s.length == 24 && s.data.all isHexChar

/-- A question sub-document as stored in MongoDB; every field is read with
a `.get` default. -/
structure QuestionDoc where
  text : Option String := none
  answer : Option String := none
  difficulty : Option String := none
deriving Repr, DecidableEq

/-- An exam document in the `exams` collection. -/
structure ExamDoc where
  oid : String
  name : Option String := none
  description : Option String := none
  questions : List QuestionDoc := []
deriving Repr, DecidableEq

/-- A transcript message as produced by transcript extraction; the
`datetime` timestamp is modelled as milliseconds. -/
structure TranscriptMsg where
  role : String
  content : String
  timestamp : Nat
deriving Repr, DecidableEq

/-- A transcript message as serialized for storage
(`timestamp.isoformat()` modelled as decimal rendering). -/
structure StoredMessage where
  role : String
  content : String
  timestamp : String
deriving Repr, DecidableEq

/-- A submission document in the `submissions` collection. -/
structure SubmissionDoc where
  oid : String
  examId : String
  createdAt : Nat := 0
  personalizedQuestions : List QuestionDoc := []
  submissionTranscript : List StoredMessage := []
  status : String := "pending"
deriving Repr, DecidableEq

/-- The MongoDB state visible to `ExamDBDriver`: connection flag plus the
two collections, in natural (insertion) order. -/
structure DB where
  connected : Bool := true
  exams : List ExamDoc := []
  submissions : List SubmissionDoc := []
deriving Repr, DecidableEq

/-- `ExamQuestion(text=q.get("text", ""), answer=q.get("answer", ""),
difficulty=q.get("difficulty", "medium"))`. -/
def buildQuestion (q : QuestionDoc) : ExamQuestion :=
  { text := q.text.getD "", answer := q.answer.getD "",
    difficulty := q.difficulty.getD "medium" }

/-- `exam_db_driver.py::get_exam_by_id` (lines 65–115). -/
def get_exam_by_id (db : DB) (exam_id : String) : Option Exam :=
  if !db.connected then none
  else if !objectIdValid exam_id then none
  else
    match db.exams.find? (fun d => d.oid == exam_id) with
    | none => none
    | some doc =>
      some { exam_id := doc.oid,
             name := doc.name.getD "Unnamed Exam",
             description := doc.description.getD "",
             questions := doc.questions.map buildQuestion }

/-- `exam_db_driver.py::get_personalized_questions_from_submission`
(lines 117–160): a `find_one` on the `submissions` collection keyed by the
document `_id` equal to the supplied identifier. -/
def get_personalized_questions_from_submission (db : DB)
    (submission_id : String) : List ExamQuestion :=
  if !db.connected then []
  else if !objectIdValid submission_id then []
  else
    match db.submissions.find? (fun d => d.oid == submission_id) with
    | none => []
    | some sub => sub.personalizedQuestions.map buildQuestion

/-- `find_one(\x7b"examId": exam_id\x7d, sort=[("createdAt", -1)])`: the
matching document with the greatest `createdAt` (first in collection order
among ties). -/
def mostRecentSubmission (subs : List SubmissionDoc) (examId : String) :
    Option SubmissionDoc :=
  (subs.filter (fun d => d.examId == examId)).foldl
    (fun acc d =>
      match acc with
      | none => some d
      | some best => if best.createdAt < d.createdAt then some d else some best)
    none

/-- `update_one(\x7b"_id": ...\x7d, \x7b"$set": ...\x7d)`: rewrite the first
document carrying the id, returning the new collection and the matched
count. -/
def updateTranscript (subs : List SubmissionDoc) (oid : String)
    (tr : List StoredMessage) : List SubmissionDoc × Nat :=
  match subs with
  | [] => ([], 0)
  | d :: rest =>
    if d.oid == oid then
      ({ d with submissionTranscript := tr, status := "completed" } :: rest, 1)
    else
      let r := updateTranscript rest oid tr
      (d :: r.1, r.2)

/-- `exam_db_driver.py` lines 182–193: render each message for storage. -/
def serializeConversation (conv : List TranscriptMsg) : List StoredMessage :=
  conv.map (fun m =>
    { role := m.role, content := m.content, timestamp := toString m.timestamp })

/-- `exam_db_driver.py::save_conversation_transcript` (lines 162–239). -/
def save_conversation_transcript (db : DB) (exam_id : String)
    (conv : List TranscriptMsg) : DB × Bool :=
  if !db.connected then (db, false)
  else
    let ser := serializeConversation conv
    if !objectIdValid exam_id then (db, false)
    else
      match mostRecentSubmission db.submissions exam_id with
      | none => (db, false)
      | some sub =>
        let r := updateTranscript db.submissions sub.oid ser
        ({ db with submissions := r.1 }, decide (0 < r.2))

/-- Python `str.strip()` on the character list (leading and trailing
whitespace removed). -/
def stripChars (l : List Char) : List Char :=
  ((l.dropWhile Char.isWhitespace).reverse.dropWhile Char.isWhitespace).reverse

/-- Python `s.strip()`. -/
def pyStrip (s : String) : String := ⟨stripChars s.data⟩

/-- `transcript.py::extract_conversation_transcript` (lines 6–49), with the
extraction-time clock passed explicitly (milliseconds; the source advances
it by `timedelta(milliseconds=1)` per synthesized timestamp). -/
def extract_conversation_transcript : List ChatMessage → Nat →
    List TranscriptMsg
  | [], _ => []
  | m :: rest, t =>
    if m.role == "system" then extract_conversation_transcript rest t
    else
      let content := contentOf m
      if pyStrip content == "" then extract_conversation_transcript rest t
      else
        let role := if m.role == "assistant" then "agent" else "user"
        match m.timestamp with
        | some ts =>
          ⟨role, pyStrip content, ts⟩ :: extract_conversation_transcript rest t
        | none =>
          ⟨role, pyStrip content, t⟩ ::
            extract_conversation_transcript rest (t + 1)

/-- `transcript.py::save_transcript` (lines 51–76): extract, then persist;
any exception is caught and `False` returned. -/
def save_transcript (db : DB) (exam_id : String) (msgs : List ChatMessage)
    (now : Nat) : DB × Bool :=
  save_conversation_transcript db exam_id
    (extract_conversation_transcript msgs now)

/-- `prompts.INSTRUCTIONS` with `\x7bexam_questions\x7d` substituted. -/
def INSTRUCTIONS (exam_questions : String) : String :=
  "\nYou are an AI exam proctor. Your role is to:\n" ++
  "1. Present questions from this exam exactly as written: \n   " ++
  exam_questions ++
  "\n2. Wait for student responses\n" ++
  "3. Maintain neutral and professional communication\n" ++
  "4. Do not provide answers or hints\n" ++
  "5. If the student says they don" ++ apos ++
  "t know the answer (using phrases like \"I don" ++ apos ++
  "t know\", \"not sure\", \"no idea\", etc.), ask if they would like another chance to answer this question\n" ++
  "6. If they want another chance (they say \"yes\", \"sure\", \"okay\", etc.), repeat the current question\n" ++
  "7. If they don" ++ apos ++
  "t want another chance (they say \"no\", \"next\", etc.), move to the next question\n" ++
  "8. After all questions are asked, thank the student and conclude the exam\n"

/-- `prompts.WELCOME_MESSAGE` with both placeholders substituted. -/
def WELCOME_MESSAGE (student_name exam_name : String) : String :=
  "Hi " ++ student_name ++ ", great to e-meet you! I" ++ apos ++
  "m Coral, a conversational voice AI. Let" ++ apos ++
  "s chat naturally. If I need you to clarify something I" ++ apos ++
  "ll just ask. Ready to get started with " ++ exam_name ++ "?"

/-- `"\n".join(f"\x7bi+1\x7d. \x7bq\x7d" for ...)` over the question texts. -/
def formattedQuestions (qs : List ExamQuestion) : String :=
  String.intercalate "\n"
    (qs.enum.map (fun p => toString (p.1 + 1) ++ ". " ++ p.2.text))

/-- The spoken failure notice when no exam can be established. -/
def failNotice : String :=
  "Sorry, I couldn" ++ apos ++
  "t load any questions for this exam. Please try again."

/-- One inline question object of the inbound message
(`q.get("text", "")`). -/
structure QuestionMsg where
  text : Option String := none
deriving Repr, DecidableEq

/-- The `data` object of an inbound `QUESTIONS` message; each field is
read with `.get` and a default in the handler. -/
structure QuestionsData where
  examId : Option String := none
  questions : List QuestionMsg := []
  name : Option String := none
  studentName : Option String := none
  isImprovized : Bool := false
  duration : Option Nat := none
  difficulty : Option String := none
deriving Repr, DecidableEq

/-- An inbound data packet after the decode/parse phase: falsy payload,
JSON decode failure, parsed message of an unknown type, or a parsed
`QUESTIONS` message. -/
inductive Inbound where
  | empty
  | malformed
  | unknownType
  | questions (d : QuestionsData)
deriving Repr, DecidableEq

/-- `handlers.py` lines 165–189: the tail of the success path — append the
exam-specific instructions to the chat context, speak the welcome message,
pause two seconds, then ask the first question. -/
def finishLoad (s : ExamState) (ex : Exam) (d : QuestionsData) :
    ExamState × List Effect :=
  let r := ask_next_question s
  (r.1,
   .appendCtx (INSTRUCTIONS (formattedQuestions ex.questions)) ::
   .say (some (WELCOME_MESSAGE (d.studentName.getD "Student") ex.name)) false ::
   .sleepMs 2000 :: r.2)

/-- `handlers.py::handle_data_received` (lines 74–196).  `data_received`
is assigned `True` as soon as the message parses, before any exam is
established.  When `examId` is falsy the lookup section is skipped and the
previously stored exam (if any) is kept; otherwise `exam` is overwritten
with the lookup result, `None` included.  Exceptions are caught by the
surrounding `try`. -/
def handle_data_received (db : DB) (s : ExamState) (inb : Inbound) :
    ExamState × List Effect :=
  match inb with
  | .empty => (s, [])
  | .malformed => (s, [])
  | .unknownType => ({ s with data_received := true }, [])
  | .questions d =>
    let s1 := { s with data_received := true }
    let exam1 : Option Exam :=
      match d.examId with
      | none => s1.exam
      | some eid =>
        if eid == "" then s1.exam
        else if d.isImprovized then
          match get_exam_by_id db eid with
          | some meta =>
            let pq := get_personalized_questions_from_submission db eid
            if !pq.isEmpty then
              some { exam_id := eid, name := meta.name, questions := pq,
                     duration := meta.duration, difficulty := meta.difficulty }
            else some meta
          | none => none
        else get_exam_by_id db eid
    match exam1 with
    | none =>
      if !d.questions.isEmpty then
        let ex : Exam :=
          { exam_id :=
              (match d.examId with
               | some eid => if eid == "" then "frontend-exam" else eid
               | none => "frontend-exam"),
            name := d.name.getD "Unnamed Exam",
            questions := d.questions.map (fun q => { text := q.text.getD "" }),
            duration := some (d.duration.getD 30),
            difficulty := some (d.difficulty.getD "Medium") }
        finishLoad { s1 with exam := some ex } ex d
      else
        ({ s1 with exam := none }, [.say (some failNotice) false])
    | some ex => finishLoad { s1 with exam := some ex } ex d

/-- The transport events the Session Controller reacts to.  Both utterance
handler variants present in the source are included as transitions. -/
inductive SessionEvent where
  | dataEv (db : DB) (inb : Inbound)
  | askEv
  | uttEv (last : Option String)
  | uttAgentEv (last : Option String)
  | disconnectEv

/-- The state reached after one event. -/
def stepEvent (s : ExamState) : SessionEvent → ExamState
  | .dataEv db inb => (handle_data_received db s inb).1
  | .askEv => (ask_next_question s).1
  | .uttEv last => (on_user_speech_committed s last).state
  | .uttAgentEv last => (on_user_speech_committed_agent s last).1
  | .disconnectEv => (on_participant_disconnected s).state

/-- The state reached from `s` after a sequence of events. -/
def runSession (s : ExamState) (evs : List SessionEvent) : ExamState :=
  evs.foldl stepEvent s

/-- The state reached after a sequence of utterance-committed events
through the `agent.py` handler variant. -/
def runUtterancesAgent (s : ExamState) (evs : List (Option String)) :
    ExamState :=
  evs.foldl (fun st last => (on_user_speech_committed_agent st last).1) s

/-- An utterance free of termination, dont-know and another-chance
phrases. -/
def cleanUtterance (last : Option String) : Bool :=
  !matchesAny last terminationPhrases && !matchesAny last dontKnowPhrases &&
    !matchesAny last anotherChancePhrases

/-- Is the effect an invocation of the transcript-persistence path? -/
def isSaveEffect : Effect → Bool
  | .saveTranscript _ => true
  | _ => false

/-- Is the effect a spoken line? -/
def isSayEffect : Effect → Bool
  | .say _ _ => true
  | _ => false

/-- The spec reading of `fetchPersonalizedQuestions` (§4.1), stated in the
spec's words for comparison with the source function: among the exam's
submissions carrying a non-empty personalized-question list, take the most
recently created one and return its list; absent when no such submission
exists. -/
def fetchPersonalizedQuestionsSpec (db : DB) (examId : String) :
    Option (List ExamQuestion) :=
  ((db.submissions.filter
      (fun d => d.examId == examId && !d.personalizedQuestions.isEmpty)).foldl
    (fun acc d =>
      match acc with
      | none => some d
      | some best => if best.createdAt < d.createdAt then some d else acc)
    none).map (fun d => d.personalizedQuestions.map buildQuestion)

/-- Does transcript extraction keep this turn? (non-system role, non-blank
trimmed text.) -/
def keptTurn (m : ChatMessage) : Bool :=
  !(m.role == "system") && !(pyStrip (contentOf m) == "")

/-- The role mapping of transcript extraction. -/
def mapRole (r : String) : String := if r == "assistant" then "agent" else "user"

/-- The timestamps transcript extraction assigns to an (already filtered)
turn list: a turn's own timestamp when present, else the synthetic clock,
advanced by one millisecond per synthesized entry. -/
def clockTimestamps : List ChatMessage → Nat → List Nat
  | [], _ => []
  | m :: rest, t =>
    match m.timestamp with
    | some ts => ts :: clockTimestamps rest t
    | none => t :: clockTimestamps rest (t + 1)

/-- A two-question exam used by concrete witnesses. -/
def examW : Exam :=
  { exam_id := "aaaaaaaaaaaaaaaaaaaaaaaa", name := "Algebra",
    questions := [{ text := "Q1" }, { text := "Q2" }] }

/-- A mid-exam state owing the student another chance on question 1. -/
def stateChanceW : ExamState :=
  { exam := some examW, data_received := true, needs_another_chance := true,
    current_question := some "Question 1: Q1", current_question_idx := 1,
    questions_asked := 1 }

/-- A state whose cursor has exhausted the two-question exam. -/
def stateDoneW : ExamState :=
  { exam := some examW, data_received := true, current_question_idx := 2,
    questions_asked := 2, current_question := some "Question 2: Q2" }

/-- A mid-exam state with the witness exam loaded. -/
def stateTermW : ExamState :=
  { exam := some examW, data_received := true, current_question_idx := 1,
    questions_asked := 1, current_question := some "Question 1: Q1" }

/-- The sort-descending combinator behind `mostRecentSubmission`. -/
def newer (acc : Option SubmissionDoc) (d : SubmissionDoc) :
    Option SubmissionDoc :=
  match acc with
  | none => some d
  | some best => if best.createdAt < d.createdAt then some d else some best

/-- A normal presenting configuration: data received, exam loaded, and the
another-chance flags clear. -/
def presenting (s : ExamState) (e : Exam) : Prop :=
  s.data_received = true ∧ s.exam = some e ∧
  s.needs_another_chance = false ∧
  s.waiting_for_another_chance_response = false

/-- The state right after the exam data arrived (before the first
question is asked). -/
def stateStartW : ExamState := { exam := some examW, data_received := true }

/-! ## Helper lemmas -/

theorem ask_of_completed (s : ExamState) (e : Exam)
    (hd : s.data_received = true) (he : s.exam = some e)
    (hc : s.exam_completed = true) :
    ask_next_question s = (s, []) := by
  simp [ask_next_question, hd, he, hc]

theorem ask_of_exhausted (s : ExamState) (e : Exam)
    (hd : s.data_received = true) (he : s.exam = some e)
    (hc : s.exam_completed = false)
    (hw : s.waiting_for_another_chance_response = false)
    (hn : s.needs_another_chance = false)
    (hx : e.questions.length ≤ s.current_question_idx) :
    ask_next_question s =
      ({ s with exam_completed := true },
       [.saveTranscript e.exam_id, .dataMessage e.exam_id,
        .say (some (closingLine e)) false]) := by
  have hlt : ¬ s.current_question_idx < e.questions.length := by omega
  simp [ask_next_question, hd, he, hc, hw, hn, hlt]

theorem ask_agent_of_completed (s : ExamState) (e : Exam)
    (hd : s.data_received = true) (he : s.exam = some e)
    (hc : s.exam_completed = true) :
    ask_next_question_agent s = (s, []) := by
  simp [ask_next_question_agent, hd, he, hc]

theorem ask_agent_advance (s : ExamState) (e : Exam)
    (hd : s.data_received = true) (he : s.exam = some e)
    (hc : s.exam_completed = false)
    (hw : s.waiting_for_another_chance_response = false)
    (hn : s.needs_another_chance = false)
    (hlt : s.current_question_idx < e.questions.length) :
    ask_next_question_agent s =
      ({ s with questions_asked := s.questions_asked + 1,
                current_question := some (questionPrompt s.current_question_idx
                  (e.questions.get ⟨s.current_question_idx, hlt⟩).text),
                current_question_idx := s.current_question_idx + 1 },
       [.say (some (questionPrompt s.current_question_idx
          (e.questions.get ⟨s.current_question_idx, hlt⟩).text)) true]) := by
  simp [ask_next_question_agent, hd, he, hc, hw, hn, hlt]

theorem ask_agent_of_exhausted (s : ExamState) (e : Exam)
    (hd : s.data_received = true) (he : s.exam = some e)
    (hc : s.exam_completed = false)
    (hw : s.waiting_for_another_chance_response = false)
    (hn : s.needs_another_chance = false)
    (hx : e.questions.length ≤ s.current_question_idx) :
    ask_next_question_agent s =
      ({ s with exam_completed := true },
       [.saveTranscript e.exam_id, .say (some (closingLine e)) false]) := by
  have hlt : ¬ s.current_question_idx < e.questions.length := by omega
  simp [ask_next_question_agent, hd, he, hc, hw, hn, hlt]

/-! ## Claim theorems -/

/-- Claim C4: whenever ask-next-question runs with `needsAnotherChance` set
and the earlier guards passing, it speaks exactly the stored
`currentQuestionText`, clears `needsAnotherChance`, and leaves
`currentQuestionIndex` and `questionsAsked` unchanged.  First conjunct: the
result is the input state with only the flag cleared (so the cursor and
counter are untouched) and the single effect speaks the stored
`current_question`.  Second conjunct: a normal advance stores as
`current_question` exactly the prompt it speaks, so the re-spoken text
equals the immediately preceding question prompt verbatim. -/
theorem another_chance_respeaks_without_advancing :
    (∀ (s : ExamState) (e : Exam) (q : String),
      s.data_received = true → s.exam = some e → s.exam_completed = false →
      s.waiting_for_another_chance_response = false →
      s.needs_another_chance = true → s.current_question = some q →
      ask_next_question s =
        ({ s with needs_another_chance := false }, [.say (some q) true])) ∧
    (∀ (s : ExamState) (e : Exam),
      s.data_received = true → s.exam = some e → s.exam_completed = false →
      s.waiting_for_another_chance_response = false →
      s.needs_another_chance = false →
      ∀ hlt : s.current_question_idx < e.questions.length,
      (ask_next_question s).1.current_question =
          some (questionPrompt s.current_question_idx
            (e.questions.get ⟨s.current_question_idx, hlt⟩).text) ∧
        (ask_next_question s).2 =
          [.say (some (questionPrompt s.current_question_idx
            (e.questions.get ⟨s.current_question_idx, hlt⟩).text)) true]) := by
  constructor
  · intro s e q hd he hc hw hn hq
    simp [ask_next_question, hd, he, hc, hw, hn, hq]
  · intro s e hd he hc hw hn hlt
    simp [ask_next_question, hd, he, hc, hw, hn, hlt]

theorem another_chance_respeaks_without_advancing_witness :
    ask_next_question stateChanceW =
      ({ stateChanceW with needs_another_chance := false },
       [.say (some "Question 1: Q1") true]) := by
  exact another_chance_respeaks_without_advancing.1 stateChanceW examW
    "Question 1: Q1" rfl rfl rfl rfl rfl rfl

/-- Claim C8: the completion procedure is idempotent.  First conjunct: from
any state where completion has already run (`exam_completed` true), running
the procedure again performs no effect at all — no second transcript
persistence, no second closing line — and leaves the state unchanged.
Second conjunct: from a state about to complete, the first run persists the
transcript exactly once and speaks exactly one line (the closing line), and
an immediately repeated run performs nothing and moves no state, so the
completion path persists and speaks at most once per session. -/
theorem completion_idempotent :
    (∀ (s : ExamState) (e : Exam),
      s.data_received = true → s.exam = some e → s.exam_completed = true →
      ask_next_question s = (s, [])) ∧
    (∀ (s : ExamState) (e : Exam),
      s.data_received = true → s.exam = some e → s.exam_completed = false →
      s.waiting_for_another_chance_response = false →
      s.needs_another_chance = false →
      e.questions.length ≤ s.current_question_idx →
      (ask_next_question s).2.countP isSaveEffect = 1 ∧
        (ask_next_question s).2.countP isSayEffect = 1 ∧
        (ask_next_question s).2.countP (fun ef => ef == .say
          (some (closingLine e)) false) = 1 ∧
        ask_next_question (ask_next_question s).1 =
          ((ask_next_question s).1, [])) := by
  constructor
  · intro s e hd he hc
    exact ask_of_completed s e hd he hc
  · intro s e hd he hc hw hn hx
    rw [ask_of_exhausted s e hd he hc hw hn hx]
    refine ⟨?_, ?_, ?_, ?_⟩
    · simp [List.countP_cons, isSaveEffect]
    · simp [List.countP_cons, isSayEffect]
    · simp [List.countP_cons]
    · exact ask_of_completed _ e (by simpa using hd) (by simpa using he) rfl

theorem completion_idempotent_witness :
    (ask_next_question stateDoneW).2.countP isSaveEffect = 1 ∧
    ask_next_question (ask_next_question stateDoneW).1 =
      ((ask_next_question stateDoneW).1, []) := by
  have h := completion_idempotent.2 stateDoneW examW rfl rfl rfl rfl rfl
    (by decide)
  exact ⟨h.1, h.2.2.2⟩

/-- Claim C5 fails as stated: "at any point in the session" includes points
where no exam has been established.  There, the termination branch speaks
the acknowledgment and sets `exam_completed`, but the transcript save is
never invoked — evaluating `exam_state.exam.exam_id` raises out of the
handler instead. -/
theorem termination_without_exam_counterexample :
    matchesAny (some "end exam") terminationPhrases = true ∧
    (on_user_speech_committed initialExamState (some "end exam")).effects.countP
        isSaveEffect = 0 ∧
    (on_user_speech_committed initialExamState (some "end exam")).exn =
      some "AttributeError" := by
  decide

/-- Claim C5 (amended): for every utterance containing a termination
phrase, at any session point WHERE AN EXAM IS ESTABLISHED, the controller
speaks the acknowledgment, sets `exam_completed` immediately, invokes the
transcript save exactly once, leaves `currentQuestionIndex` (and all other
cursor state) unchanged, and bypasses the normal completion messaging (no
closing line, no `EXAM_COMPLETED` message): the full handler result is the
input state with only `exam_completed` forced true, plus exactly the
acknowledgment and one transcript save (conjunct 1).  At a session point
where the exam is absent, the handler speaks the acknowledgment, sets
`exam_completed`, and then raises `AttributeError` instead of invoking the
save (conjunct 2). -/
theorem termination_phrase_ends_exam :
    (∀ (s : ExamState) (e : Exam) (last : Option String),
      s.exam = some e →
      matchesAny last terminationPhrases = true →
      on_user_speech_committed s last =
        { state := { s with exam_completed := true },
          effects := [.say (some endAck) false, .saveTranscript e.exam_id],
          exn := none }) ∧
    (∀ (s : ExamState) (last : Option String),
      s.exam = none →
      matchesAny last terminationPhrases = true →
      on_user_speech_committed s last =
        { state := { s with exam_completed := true },
          effects := [.say (some endAck) false],
          exn := some "AttributeError" }) := by
  constructor
  · intro s e last he ht
    simp [on_user_speech_committed, ht, he]
  · intro s last he ht
    simp [on_user_speech_committed, ht, he]

theorem termination_phrase_ends_exam_witness :
    on_user_speech_committed stateTermW (some "Please stop exam now") =
      { state := { stateTermW with exam_completed := true },
        effects := [.say (some endAck) false,
                    .saveTranscript "aaaaaaaaaaaaaaaaaaaaaaaa"],
        exn := none } := by
  have h := termination_phrase_ends_exam.1 stateTermW examW
    (some "Please stop exam now") rfl (by decide)
  simpa [examW] using h

/-- Claim C6 names a code bug: the spec's propagation policy says no
exception crosses out of an event handler uncaught, but in two handlers the
attribute access `exam_state.exam.exam_id` is unguarded: the
utterance-committed handler's termination branch (`handlers.py` line 223)
and the participant-disconnected handler (`utils.py` line 26) both raise
`AttributeError` when `exam` is absent — a state reachable whenever the
student speaks a termination phrase, or disconnects, before exam data
arrives. -/
theorem handler_raises_when_exam_absent :
    (on_user_speech_committed initialExamState (some "finish exam")).exn =
      some "AttributeError" ∧
    (on_participant_disconnected initialExamState).exn =
      some "AttributeError" := by
  decide

theorem find_by_unique_oid (l : List SubmissionDoc) (sub : SubmissionDoc)
    (sid : String) (hmem : sub ∈ l) (hid : sub.oid = sid)
    (hnd : (l.map SubmissionDoc.oid).Nodup) :
    l.find? (fun d => d.oid == sid) = some sub := by
  induction l with
  | nil => cases hmem
  | cons a t ih =>
    rcases List.mem_cons.1 hmem with rfl | hmt
    · exact List.find?_cons_of_pos _ (by simp [hid])
    · have hnd' := hnd
      rw [List.map_cons, List.nodup_cons] at hnd'
      have hne : ¬ a.oid == sid := by
        simp only [beq_iff_eq]
        intro has
        exact hnd'.1 (has.trans hid.symm ▸ List.mem_map_of_mem _ hmt)
      rw [List.find?_cons_of_neg _ (by simpa using hne)]
      exact ih hmt hnd'.2

/-- Claim C2 fails as stated: the source function looks the submission up
by its own document `_id` equal to the supplied exam id — not by `examId`
with a recency sort.  Concretely, with a single submission whose `examId`
matches the exam and whose personalized-question list is non-empty but
whose own `_id` differs from the exam id, the spec reading returns that
list while the code returns the empty result. -/
theorem personalized_lookup_counterexample :
    get_personalized_questions_from_submission
        { submissions := [{ oid := "bbbbbbbbbbbbbbbbbbbbbbbb",
                            examId := "aaaaaaaaaaaaaaaaaaaaaaaa",
                            createdAt := 5,
                            personalizedQuestions :=
                              [{ text := some "What is recursion?" }] }] }
        "aaaaaaaaaaaaaaaaaaaaaaaa" = [] ∧
    fetchPersonalizedQuestionsSpec
        { submissions := [{ oid := "bbbbbbbbbbbbbbbbbbbbbbbb",
                            examId := "aaaaaaaaaaaaaaaaaaaaaaaa",
                            createdAt := 5,
                            personalizedQuestions :=
                              [{ text := some "What is recursion?" }] }] }
        "aaaaaaaaaaaaaaaaaaaaaaaa" =
      some [{ text := "What is recursion?", answer := "",
              difficulty := "medium" }] := by
  decide

/-- Claim C2 (amended): fetching personalized questions is keyed by the
submission document id, not by recency among the exam's submissions: given
a connected client and a well-formed id, it returns the (per-field
defaulted) personalized-question list of the unique submission whose own
`_id` equals the supplied identifier — empty included — and the empty
result when no submission carries that id. -/
theorem personalized_lookup_by_submission_id :
    (∀ (db : DB) (sid : String) (sub : SubmissionDoc),
      db.connected = true → objectIdValid sid = true →
      sub ∈ db.submissions → sub.oid = sid →
      (db.submissions.map SubmissionDoc.oid).Nodup →
      get_personalized_questions_from_submission db sid =
        sub.personalizedQuestions.map buildQuestion) ∧
    (∀ (db : DB) (sid : String),
      (∀ d ∈ db.submissions, d.oid ≠ sid) →
      get_personalized_questions_from_submission db sid = []) := by
  constructor
  · intro db sid sub hc hv hmem hid hnd
    rw [get_personalized_questions_from_submission]
    rw [find_by_unique_oid db.submissions sub sid hmem hid hnd]
    simp [hc, hv]
  · intro db sid hnone
    rw [get_personalized_questions_from_submission]
    have : db.submissions.find? (fun d => d.oid == sid) = none := by
      rw [List.find?_eq_none]
      intro d hd
      simpa using hnone d hd
    rw [this]
    by_cases hc : db.connected <;> by_cases hv : objectIdValid sid <;>
      simp [hc, hv]

theorem personalized_lookup_by_submission_id_witness :
    get_personalized_questions_from_submission
        { submissions := [{ oid := "cccccccccccccccccccccccc",
                            examId := "aaaaaaaaaaaaaaaaaaaaaaaa",
                            personalizedQuestions :=
                              [{ text := some "Define a monad." }] }] }
        "cccccccccccccccccccccccc" =
      [{ text := "Define a monad.", answer := "", difficulty := "medium" }] := by
  have h := personalized_lookup_by_submission_id.1
    { submissions := [{ oid := "cccccccccccccccccccccccc",
                        examId := "aaaaaaaaaaaaaaaaaaaaaaaa",
                        personalizedQuestions :=
                          [{ text := some "Define a monad." }] }] }
    "cccccccccccccccccccccccc"
    { oid := "cccccccccccccccccccccccc",
      examId := "aaaaaaaaaaaaaaaaaaaaaaaa",
      personalizedQuestions := [{ text := some "Define a monad." }] }
    rfl (by decide) (by decide) rfl (by decide)
  simpa using h

/-- Claim C3 fails as stated: `data_received` is assigned true as soon as
an inbound message parses, before any exam is established.  Here a
`QUESTIONS` message whose repository lookup yields nothing and which
carries no inline question list leaves the failure notice spoken and the
exam absent — yet `data_received` is true, where the claim says it becomes
true only on a message that successfully establishes an exam. -/
theorem data_received_despite_failure_counterexample :
    (handle_data_received {} initialExamState
        (.questions { examId := some "cccccccccccccccccccccccc" })).1.data_received
      = true ∧
    (handle_data_received {} initialExamState
        (.questions { examId := some "cccccccccccccccccccccccc" })).1.exam
      = none ∧
    (handle_data_received {} initialExamState
        (.questions { examId := some "cccccccccccccccccccccccc" })).2
      = [.say (some failNotice) false] := by
  decide

/-- Claim C3 (amended): when no exam can be established — the repository
lookup yields nothing, in the regular branch or in the improvised branch
(whose exam is absent exactly when the metadata lookup yields nothing), or
the message carries no usable exam id and none is already stored — and the
message carries no inline question list, the controller speaks the failure
notice and the session keeps no exam (the `PRESENTING` transition never
happens); however `dataReceived` becomes true on any successfully parsed
inbound message — an unknown-type message included — not only on an
exam-selection message that successfully establishes an exam.  Conjunct 1:
the lookup-failure path, for either value of `isImprovized`.  Conjunct 2:
the falsy-exam-id path with no stored exam.  Conjunct 3: an unknown-type
message sets `data_received` and does nothing else. -/
theorem no_exam_established_failure :
    (∀ (db : DB) (s : ExamState) (d : QuestionsData) (eid : String),
      d.examId = some eid → eid ≠ "" →
      get_exam_by_id db eid = none →
      d.questions = [] →
      handle_data_received db s (.questions d) =
        ({ s with data_received := true, exam := none },
         [.say (some failNotice) false])) ∧
    (∀ (db : DB) (s : ExamState) (d : QuestionsData),
      (d.examId = none ∨ d.examId = some "") →
      s.exam = none →
      d.questions = [] →
      handle_data_received db s (.questions d) =
        ({ s with data_received := true, exam := none },
         [.say (some failNotice) false])) ∧
    (∀ (db : DB) (s : ExamState),
      handle_data_received db s .unknownType =
        ({ s with data_received := true }, [])) := by
  refine ⟨?_, ?_, ?_⟩
  · intro db s d eid hid hne hlook hq
    cases himp : d.isImprovized with
    | true => simp [handle_data_received, hid, hne, himp, hlook, hq]
    | false => simp [handle_data_received, hid, hne, himp, hlook, hq]
  · intro db s d hid he hq
    rcases hid with hid | hid <;> simp [handle_data_received, hid, he, hq]
  · intro db s
    rfl

theorem no_exam_established_failure_witness :
    handle_data_received {} initialExamState
        (.questions { examId := some "dddddddddddddddddddddddd",
                      isImprovized := true }) =
      ({ initialExamState with data_received := true, exam := none },
       [.say (some failNotice) false]) ∧
    handle_data_received {} initialExamState Inbound.unknownType =
      ({ initialExamState with data_received := true }, []) := by
  exact ⟨no_exam_established_failure.1 {} initialExamState
      { examId := some "dddddddddddddddddddddddd", isImprovized := true }
      "dddddddddddddddddddddddd" rfl (by decide) (by decide) rfl,
    no_exam_established_failure.2.2 {} initialExamState⟩

theorem mostRecent_def (subs : List SubmissionDoc) (eid : String) :
    mostRecentSubmission subs eid =
      (subs.filter (fun d => d.examId == eid)).foldl newer none := rfl

theorem foldl_newer_cases (l : List SubmissionDoc) :
    ∀ acc,
      (l.foldl newer acc = acc ∨ ∃ d ∈ l, l.foldl newer acc = some d) ∧
      (∀ d ∈ l, ∃ b, l.foldl newer acc = some b ∧
        d.createdAt ≤ b.createdAt) ∧
      (∀ a, acc = some a → ∃ b, l.foldl newer acc = some b ∧
        a.createdAt ≤ b.createdAt) := by
  induction l with
  | nil =>
    intro acc
    refine ⟨Or.inl rfl, by simp, ?_⟩
    intro a ha
    exact ⟨a, by simp [ha], le_refl _⟩
  | cons x t ih =>
    intro acc
    rw [List.foldl_cons]
    cases acc with
    | none =>
      have hstep : newer none x = some x := rfl
      rw [hstep]
      obtain ⟨hm, hmax, hacc⟩ := ih (some x)
      refine ⟨?_, ?_, by simp⟩
      · rcases hm with heq | ⟨d, hd, heq⟩
        · exact Or.inr ⟨x, List.mem_cons_self x t, heq⟩
        · exact Or.inr ⟨d, List.mem_cons_of_mem x hd, heq⟩
      · intro d hd
        rcases List.mem_cons.1 hd with rfl | hdt
        · exact hacc d rfl
        · exact hmax d hdt
    | some a =>
      by_cases hlt : a.createdAt < x.createdAt
      · have hstep : newer (some a) x = some x := by simp [newer, hlt]
        rw [hstep]
        obtain ⟨hm, hmax, hacc⟩ := ih (some x)
        refine ⟨?_, ?_, ?_⟩
        · rcases hm with heq | ⟨d, hd, heq⟩
          · exact Or.inr ⟨x, List.mem_cons_self x t, heq⟩
          · exact Or.inr ⟨d, List.mem_cons_of_mem x hd, heq⟩
        · intro d hd
          rcases List.mem_cons.1 hd with rfl | hdt
          · exact hacc d rfl
          · exact hmax d hdt
        · intro b hb
          obtain rfl := Option.some_inj.1 hb.symm
          obtain ⟨c, hc, hxc⟩ := hacc x rfl
          exact ⟨c, hc, le_trans (le_of_lt hlt) hxc⟩
      · have hstep : newer (some a) x = some a := by simp [newer, hlt]
        rw [hstep]
        obtain ⟨hm, hmax, hacc⟩ := ih (some a)
        refine ⟨?_, ?_, hacc⟩
        · rcases hm with heq | ⟨d, hd, heq⟩
          · exact Or.inl heq
          · exact Or.inr ⟨d, List.mem_cons_of_mem x hd, heq⟩
        · intro d hd
          rcases List.mem_cons.1 hd with rfl | hdt
          · obtain ⟨c, hc, hxc⟩ := hacc a rfl
            exact ⟨c, hc, le_trans (Nat.le_of_not_lt hlt) hxc⟩
          · exact hmax d hdt

theorem mostRecent_spec (subs : List SubmissionDoc) (eid : String)
    (sub : SubmissionDoc) (h : mostRecentSubmission subs eid = some sub) :
    sub ∈ subs ∧ sub.examId = eid ∧
      ∀ d ∈ subs, d.examId = eid → d.createdAt ≤ sub.createdAt := by
  rw [mostRecent_def] at h
  obtain ⟨hm, hmax, _⟩ :=
    foldl_newer_cases (subs.filter (fun d => d.examId == eid)) none
  rcases hm with heq | ⟨d, hd, heq⟩
  · rw [h] at heq; cases heq
  · rw [h] at heq
    obtain rfl := Option.some_inj.1 heq
    have hmem := List.mem_filter.1 hd
    refine ⟨hmem.1, by simpa using hmem.2, ?_⟩
    intro d2 hd2 he2
    obtain ⟨b, hb, hle⟩ := hmax d2 (List.mem_filter.2 ⟨hd2, by simp [he2]⟩)
    rw [h] at hb
    obtain rfl := Option.some_inj.1 hb
    exact hle

theorem map_no_hit (l : List SubmissionDoc) (oid : String)
    (tr : List StoredMessage) (h : ∀ d ∈ l, d.oid ≠ oid) :
    l.map (fun d => if d.oid == oid then
        { d with submissionTranscript := tr, status := "completed" }
      else d) = l := by
  induction l with
  | nil => rfl
  | cons a t ih =>
    simp only [List.map_cons]
    rw [if_neg (by simpa using h a (List.mem_cons_self a t)),
        ih (fun d hd => h d (List.mem_cons_of_mem a hd))]

theorem updateTranscript_of_unique (l : List SubmissionDoc)
    (sub : SubmissionDoc) (tr : List StoredMessage)
    (hmem : sub ∈ l) (hnd : (l.map SubmissionDoc.oid).Nodup) :
    updateTranscript l sub.oid tr =
      (l.map (fun d => if d.oid == sub.oid then
          { d with submissionTranscript := tr, status := "completed" }
        else d), 1) := by
  induction l with
  | nil => cases hmem
  | cons a t ih =>
    rw [List.map_cons, List.nodup_cons] at hnd
    rcases List.mem_cons.1 hmem with rfl | hmt
    · rw [updateTranscript, if_pos (by simp)]
      simp only [List.map_cons]
      rw [if_pos (by simp)]
      have hno : ∀ d ∈ t, d.oid ≠ sub.oid := by
        intro d hd he
        exact hnd.1 (he ▸ List.mem_map_of_mem SubmissionDoc.oid hd)
      rw [map_no_hit t sub.oid tr hno]
    · have hne : ¬ (a.oid == sub.oid) = true := by
        simp only [beq_iff_eq]
        intro he
        exact hnd.1 (he ▸ List.mem_map_of_mem SubmissionDoc.oid hmt)
      rw [updateTranscript, if_neg hne]
      simp only [List.map_cons]
      rw [if_neg hne, ih hmt hnd.2]

/-- Claim C7: `saveTranscript` overwrites the transcript field and sets the
completed status on the most-recently-created submission matching the exam
id, returns true exactly when the update matched a record, and returns
false — never raising (the function is total) — when the id is malformed or
no matching submission exists.  Conjunct 1: malformed id ⇒ `(db, false)`.
Conjunct 2: no matching submission ⇒ `(db, false)`.  Conjunct 3: the
located submission really is a matching one of maximal creation timestamp.
Conjunct 4: on success the collection is rewritten with exactly that
submission's transcript overwritten and status set to "completed", and the
call returns true. -/
theorem save_transcript_contract :
    (∀ (db : DB) (eid : String) (conv : List TranscriptMsg),
      objectIdValid eid = false →
      save_conversation_transcript db eid conv = (db, false)) ∧
    (∀ (db : DB) (eid : String) (conv : List TranscriptMsg),
      mostRecentSubmission db.submissions eid = none →
      save_conversation_transcript db eid conv = (db, false)) ∧
    (∀ (db : DB) (eid : String) (sub : SubmissionDoc),
      mostRecentSubmission db.submissions eid = some sub →
      sub ∈ db.submissions ∧ sub.examId = eid ∧
        ∀ d ∈ db.submissions, d.examId = eid →
          d.createdAt ≤ sub.createdAt) ∧
    (∀ (db : DB) (eid : String) (conv : List TranscriptMsg)
        (sub : SubmissionDoc),
      db.connected = true → objectIdValid eid = true →
      mostRecentSubmission db.submissions eid = some sub →
      (db.submissions.map SubmissionDoc.oid).Nodup →
      save_conversation_transcript db eid conv =
        ({ db with submissions := db.submissions.map (fun d =>
             if d.oid == sub.oid then
               { d with
                   submissionTranscript := serializeConversation conv,
                   status := "completed" }
             else d) }, true)) := by
  refine ⟨?_, ?_, ?_, ?_⟩
  · intro db eid conv hv
    by_cases hc : db.connected <;> simp [save_conversation_transcript, hc, hv]
  · intro db eid conv hm
    by_cases hc : db.connected <;>
      by_cases hv : objectIdValid eid <;>
      simp [save_conversation_transcript, hc, hv, hm]
  · intro db eid sub hm
    exact mostRecent_spec db.submissions eid sub hm
  · intro db eid conv sub hc hv hm hnd
    have hmem := (mostRecent_spec db.submissions eid sub hm).1
    simp only [save_conversation_transcript, hc, hv, hm, Bool.not_true,
      Bool.false_eq_true, if_false]
    rw [updateTranscript_of_unique db.submissions sub
      (serializeConversation conv) hmem hnd]
    simp

theorem save_transcript_contract_witness :
    save_conversation_transcript
        { submissions := [{ oid := "eeeeeeeeeeeeeeeeeeeeeeee",
                            examId := "aaaaaaaaaaaaaaaaaaaaaaaa",
                            createdAt := 7 }] }
        "aaaaaaaaaaaaaaaaaaaaaaaa"
        [{ role := "user", content := "hello", timestamp := 3 }] =
      ({ submissions := [{ oid := "eeeeeeeeeeeeeeeeeeeeeeee",
                           examId := "aaaaaaaaaaaaaaaaaaaaaaaa",
                           createdAt := 7,
                           submissionTranscript :=
                             [{ role := "user", content := "hello",
                                timestamp := "3" }],
                           status := "completed" }] }, true) := by
  have h := save_transcript_contract.2.2.2
    { submissions := [{ oid := "eeeeeeeeeeeeeeeeeeeeeeee",
                        examId := "aaaaaaaaaaaaaaaaaaaaaaaa",
                        createdAt := 7 }] }
    "aaaaaaaaaaaaaaaaaaaaaaaa"
    [{ role := "user", content := "hello", timestamp := 3 }]
    { oid := "eeeeeeeeeeeeeeeeeeeeeeee",
      examId := "aaaaaaaaaaaaaaaaaaaaaaaa", createdAt := 7 }
    rfl (by decide) (by decide) (by decide)
  exact h.trans (by decide)

/-- Claim C9: transcript extraction excludes every system-role turn and
every turn whose text is empty after trimming, maps the assistant role to
"agent" and every other non-system role to "user", preserves the original
order of the remaining turns, and gives each turn lacking its own
timestamp a synthesized timestamp advancing by one millisecond per
synthesized entry.  Conjunct 1: the roles and contents of the output are
exactly the role-mapped, trimmed kept turns in order.  Conjunct 2: the
output timestamps are exactly the clock assignment over the kept turns.
Conjunct 3: over kept turns that all lack timestamps, the clock assignment
is `t, t+1, t+2, …` — strictly increasing by one-millisecond steps. -/
theorem transcript_extraction_spec :
    (∀ (msgs : List ChatMessage) (t : Nat),
      (extract_conversation_transcript msgs t).map
          (fun en => (en.role, en.content))
        = (msgs.filter keptTurn).map
            (fun m => (mapRole m.role, pyStrip (contentOf m)))) ∧
    (∀ (msgs : List ChatMessage) (t : Nat),
      (extract_conversation_transcript msgs t).map TranscriptMsg.timestamp
        = clockTimestamps (msgs.filter keptTurn) t) ∧
    (∀ (l : List ChatMessage) (t : Nat), (∀ m ∈ l, m.timestamp = none) →
      clockTimestamps l t = List.range' t l.length 1) := by
  refine ⟨?_, ?_, ?_⟩
  · intro msgs
    induction msgs with
    | nil => intro t; rfl
    | cons m rest ih =>
      intro t
      by_cases hs : m.role == "system"
      · simp [extract_conversation_transcript, keptTurn, hs, ih]
      · by_cases hb : pyStrip (contentOf m) == ""
        · simp [extract_conversation_transcript, keptTurn, hs, hb, ih]
        · cases hts : m.timestamp with
          | some ts =>
            simp [extract_conversation_transcript, keptTurn, hs, hb, hts,
              ih, mapRole]
          | none =>
            simp [extract_conversation_transcript, keptTurn, hs, hb, hts,
              ih, mapRole]
  · intro msgs
    induction msgs with
    | nil => intro t; rfl
    | cons m rest ih =>
      intro t
      by_cases hs : m.role == "system"
      · simp [extract_conversation_transcript, keptTurn, hs, ih]
      · by_cases hb : pyStrip (contentOf m) == ""
        · simp [extract_conversation_transcript, keptTurn, hs, hb, ih]
        · cases hts : m.timestamp with
          | some ts =>
            simp [extract_conversation_transcript, keptTurn, hs, hb, hts,
              ih, clockTimestamps]
          | none =>
            simp [extract_conversation_transcript, keptTurn, hs, hb, hts,
              ih, clockTimestamps]
  · intro l
    induction l with
    | nil => intro t _; rfl
    | cons m rest ih =>
      intro t hall
      have hm : m.timestamp = none := hall m (List.mem_cons_self m rest)
      rw [clockTimestamps, hm, List.length_cons, List.range'_succ]
      exact congrArg (t :: ·)
        (ih (t + 1) (fun d hd => hall d (List.mem_cons_of_mem m hd)))

theorem transcript_extraction_spec_witness :
    clockTimestamps
      [{ role := "user", text := "hi" }, { role := "assistant", text := "ok" }]
      100 = [100, 101] := by
  have h := transcript_extraction_spec.2.2
    [{ role := "user", text := "hi" }, { role := "assistant", text := "ok" }]
    100 (by decide)
  exact h.trans (by decide)

theorem ask_preserves_counters (s : ExamState)
    (h : s.questions_asked = s.current_question_idx) :
    (ask_next_question s).1.questions_asked
      = (ask_next_question s).1.current_question_idx := by
  unfold ask_next_question
  repeat' split
  all_goals simp_all

theorem ask_agent_preserves_counters (s : ExamState)
    (h : s.questions_asked = s.current_question_idx) :
    (ask_next_question_agent s).1.questions_asked
      = (ask_next_question_agent s).1.current_question_idx := by
  unfold ask_next_question_agent
  repeat' split
  all_goals simp_all

theorem utt_preserves_counters (s : ExamState) (last : Option String)
    (h : s.questions_asked = s.current_question_idx) :
    (on_user_speech_committed s last).state.questions_asked
      = (on_user_speech_committed s last).state.current_question_idx := by
  simp only [on_user_speech_committed]
  repeat' split
  all_goals first
    | simpa using h
    | exact ask_preserves_counters _ (by simpa using h)

theorem utt_agent_preserves_counters (s : ExamState) (last : Option String)
    (h : s.questions_asked = s.current_question_idx) :
    (on_user_speech_committed_agent s last).1.questions_asked
      = (on_user_speech_committed_agent s last).1.current_question_idx := by
  simp only [on_user_speech_committed_agent, normalAdvanceAgent]
  repeat' split
  all_goals first
    | simpa using h
    | exact ask_agent_preserves_counters _ (by simpa using h)

theorem data_preserves_counters (db : DB) (s : ExamState) (inb : Inbound)
    (h : s.questions_asked = s.current_question_idx) :
    (handle_data_received db s inb).1.questions_asked
      = (handle_data_received db s inb).1.current_question_idx := by
  cases inb with
  | empty => simpa [handle_data_received] using h
  | malformed => simpa [handle_data_received] using h
  | unknownType => simpa [handle_data_received] using h
  | questions d =>
    simp only [handle_data_received, finishLoad]
    repeat' split
    all_goals first
      | simpa using h
      | exact ask_preserves_counters _ (by simpa using h)

theorem disconnect_preserves_counters (s : ExamState)
    (h : s.questions_asked = s.current_question_idx) :
    (on_participant_disconnected s).state.questions_asked
      = (on_participant_disconnected s).state.current_question_idx := by
  simp only [on_participant_disconnected]
  split <;> simpa using h

theorem step_preserves_counters (s : ExamState) (ev : SessionEvent)
    (h : s.questions_asked = s.current_question_idx) :
    (stepEvent s ev).questions_asked = (stepEvent s ev).current_question_idx := by
  cases ev with
  | dataEv db inb => exact data_preserves_counters db s inb h
  | askEv => exact ask_preserves_counters s h
  | uttEv last => exact utt_preserves_counters s last h
  | uttAgentEv last => exact utt_agent_preserves_counters s last h
  | disconnectEv => exact disconnect_preserves_counters s h

/-- Claim C10: in every reachable session state — starting from the
initial state and applying any sequence of data-received,
ask-next-question, utterance-committed (either handler variant) and
participant-disconnected transitions — `questionsAsked` equals
`currentQuestionIndex`: the two counters are incremented only together in
the normal-advance branch and are never otherwise modified. -/
theorem questions_asked_eq_cursor (evs : List SessionEvent) :
    (runSession initialExamState evs).questions_asked
      = (runSession initialExamState evs).current_question_idx := by
  suffices hgen : ∀ (l : List SessionEvent) (s : ExamState),
      s.questions_asked = s.current_question_idx →
      (runSession s l).questions_asked = (runSession s l).current_question_idx by
    exact hgen evs initialExamState rfl
  intro l
  induction l with
  | nil => intro s hs; exact hs
  | cons ev rest ih =>
    intro s hs
    have : runSession s (ev :: rest) = runSession (stepEvent s ev) rest := by
      simp [runSession]
    rw [this]
    exact ih (stepEvent s ev) (step_preserves_counters s ev hs)


theorem clean_step_agent (s : ExamState) (e : Exam) (u : Option String)
    (hp : presenting s e) (hu : cleanUtterance u = true) :
    (on_user_speech_committed_agent s u).1 =
      (if s.exam_completed then s
       else if h : s.current_question_idx < e.questions.length then
         { s with questions_asked := s.questions_asked + 1,
                  current_question := some (questionPrompt s.current_question_idx
                    (e.questions.get ⟨s.current_question_idx, h⟩).text),
                  current_question_idx := s.current_question_idx + 1 }
       else { s with exam_completed := true }) := by
  obtain ⟨hd, he, hn, hw⟩ := hp
  rw [cleanUtterance, Bool.and_eq_true, Bool.and_eq_true, Bool.not_eq_true',
    Bool.not_eq_true', Bool.not_eq_true'] at hu
  obtain ⟨⟨h1, h2⟩, h3⟩ := hu
  have hnorm : on_user_speech_committed_agent s u = normalAdvanceAgent s := by
    rw [on_user_speech_committed_agent, hw]
    simp [h2]
  rw [hnorm, normalAdvanceAgent]
  cases hcmp : s.exam_completed with
  | true => simp [hcmp]
  | false =>
    simp only [hcmp, Bool.false_eq_true, if_false]
    by_cases hlt : s.current_question_idx < e.questions.length
    · rw [ask_agent_advance s e hd he hcmp hw hn hlt]
      simp [hlt, hcmp]
    · rw [ask_agent_of_exhausted s e hd he hcmp hw hn (Nat.le_of_not_lt hlt)]
      simp [hlt, hcmp]


theorem clean_trace_aux (evs : List (Option String)) :
    ∀ (s : ExamState) (e : Exam), presenting s e →
      (∀ u ∈ evs, cleanUtterance u = true) →
      s.current_question_idx ≤ e.questions.length →
      presenting (runUtterancesAgent s evs) e ∧
      (runUtterancesAgent s evs).current_question_idx ≤
        e.questions.length ∧
      (s.exam_completed = true → runUtterancesAgent s evs = s) ∧
      (s.exam_completed = false →
        (runUtterancesAgent s evs).current_question_idx =
          min (s.current_question_idx + evs.length) e.questions.length ∧
        (runUtterancesAgent s evs).exam_completed =
          decide (e.questions.length < s.current_question_idx + evs.length)) := by
  induction evs with
  | nil =>
    intro s e hp hc hle
    refine ⟨hp, hle, fun _ => rfl, fun hcf => ⟨?_, ?_⟩⟩
    · show s.current_question_idx =
        min (s.current_question_idx + 0) e.questions.length
      omega
    · show s.exam_completed =
        decide (e.questions.length < s.current_question_idx + 0)
      rw [hcf]
      have hnot : ¬ e.questions.length < s.current_question_idx + 0 := by
        omega
      exact (decide_eq_false hnot).symm
  | cons u rest ih =>
    intro s e hp hc hle
    have hu := hc u (List.mem_cons_self u rest)
    have hrest : ∀ v ∈ rest, cleanUtterance v = true :=
      fun v hv => hc v (List.mem_cons_of_mem u hv)
    have hstep := clean_step_agent s e u hp hu
    have hrun : runUtterancesAgent s (u :: rest) =
        runUtterancesAgent (on_user_speech_committed_agent s u).1 rest := by
      simp [runUtterancesAgent]
    obtain ⟨hd, he, hn, hw⟩ := hp
    cases hcmp : s.exam_completed with
    | true =>
      have hs' : (on_user_speech_committed_agent s u).1 = s := by
        rw [hstep]; simp [hcmp]
      rw [hrun, hs']
      obtain ⟨p1, p2, p3, p4⟩ := ih s e ⟨hd, he, hn, hw⟩ hrest hle
      exact ⟨p1, p2, fun _ => p3 hcmp, fun hf => Bool.noConfusion hf⟩
    | false =>
      by_cases hlt : s.current_question_idx < e.questions.length
      · have hs' : (on_user_speech_committed_agent s u).1 =
            { s with questions_asked := s.questions_asked + 1,
                     current_question :=
                       some (questionPrompt s.current_question_idx
                         (e.questions.get ⟨s.current_question_idx, hlt⟩).text),
                     current_question_idx := s.current_question_idx + 1 } := by
          rw [hstep]; simp [hcmp, hlt]
        have hp' : presenting (on_user_speech_committed_agent s u).1 e := by
          rw [hs']; exact ⟨hd, he, hn, hw⟩
        have hle' : (on_user_speech_committed_agent s u).1.current_question_idx
            ≤ e.questions.length := by
          rw [hs']; exact hlt
        obtain ⟨p1, p2, p3, p4⟩ := ih _ e hp' hrest hle'
        have hcf' : (on_user_speech_committed_agent s u).1.exam_completed
            = false := by
          rw [hs']; exact hcmp
        have hidx' : (on_user_speech_committed_agent s u).1.current_question_idx
            = s.current_question_idx + 1 := by
          rw [hs']
        obtain ⟨q1, q2⟩ := p4 hcf'
        rw [hidx'] at q1 q2
        rw [hrun]
        refine ⟨p1, p2, fun hT => Bool.noConfusion hT, fun _ => ⟨?_, ?_⟩⟩
        · simp only [List.length_cons]
          omega
        · simp only [List.length_cons]
          have harith : s.current_question_idx + 1 + rest.length =
              s.current_question_idx + (rest.length + 1) := by omega
          rw [harith] at q2
          exact q2
      · have hs' : (on_user_speech_committed_agent s u).1 =
            { s with exam_completed := true } := by
          rw [hstep]; simp [hcmp, hlt]
        have hp' : presenting (on_user_speech_committed_agent s u).1 e := by
          rw [hs']; exact ⟨hd, he, hn, hw⟩
        have hle' : (on_user_speech_committed_agent s u).1.current_question_idx
            ≤ e.questions.length := by
          rw [hs']; exact hle
        obtain ⟨p1, p2, p3, p4⟩ := ih _ e hp' hrest hle'
        have hcT : (on_user_speech_committed_agent s u).1.exam_completed
            = true := by
          rw [hs']
        have hfix := p3 hcT
        rw [hrun, hfix, hs']
        have hL : e.questions.length ≤ s.current_question_idx :=
          Nat.le_of_not_lt hlt
        refine ⟨⟨hd, he, hn, hw⟩, hle, fun hT => Bool.noConfusion hT,
          fun _ => ⟨?_, ?_⟩⟩
        · simp only [List.length_cons]
          show s.current_question_idx =
            min (s.current_question_idx + (rest.length + 1))
              e.questions.length
          omega
        · simp only [List.length_cons]
          show true = decide (e.questions.length <
            s.current_question_idx + (rest.length + 1))
          have hgt : e.questions.length <
              s.current_question_idx + (rest.length + 1) := by omega
          exact (decide_eq_true hgt).symm

/-- Claim C1: from any presenting, not-yet-completed state (exam loaded,
sub-dialog flags clear, cursor within bounds), over any sequence of
utterance-committed events through the `agent.py` handler whose utterances
contain no termination, dont-know or another-chance phrases: the cursor
after n events equals min (start + n) questions.length — each event
advances it by exactly 1 until it equals the question count and never past
it — and `examCompleted` holds exactly when n exceeds the advances needed
to reach the count, i.e. the first event processed with the cursor at
questions.length sets it; finally, once `examCompleted` holds, every
further clean event leaves the state entirely unchanged, so it remains
true for all subsequent events. -/
theorem clean_trace_advances_then_completes (s : ExamState) (e : Exam)
    (evs : List (Option String))
    (hp : presenting s e)
    (hclean : ∀ u ∈ evs, cleanUtterance u = true)
    (hle : s.current_question_idx ≤ e.questions.length)
    (hc : s.exam_completed = false) :
    (runUtterancesAgent s evs).current_question_idx
        = min (s.current_question_idx + evs.length) e.questions.length ∧
    ((runUtterancesAgent s evs).exam_completed = true ↔
        e.questions.length < s.current_question_idx + evs.length) ∧
    (∀ evs2, (∀ u ∈ evs2, cleanUtterance u = true) →
      (runUtterancesAgent s evs).exam_completed = true →
      runUtterancesAgent (runUtterancesAgent s evs) evs2
        = runUtterancesAgent s evs) := by
  obtain ⟨p1, p2, p3, p4⟩ := clean_trace_aux evs s e hp hclean hle
  obtain ⟨q1, q2⟩ := p4 hc
  refine ⟨q1, ?_, ?_⟩
  · rw [q2]
    exact decide_eq_true_iff
  · intro evs2 hc2 hT
    exact (clean_trace_aux evs2 _ e p1 hc2 p2).2.2.1 hT

theorem clean_trace_advances_then_completes_witness :
    (runUtterancesAgent stateStartW
        [some "alpha", some "beta", some "gamma"]).current_question_idx = 2 ∧
    (runUtterancesAgent stateStartW
        [some "alpha", some "beta", some "gamma"]).exam_completed = true := by
  have h := clean_trace_advances_then_completes stateStartW examW
    [some "alpha", some "beta", some "gamma"]
    ⟨rfl, rfl, rfl, rfl⟩ (by decide) (by decide) rfl
  exact ⟨h.1.trans (by decide), h.2.1.mpr (by decide)⟩
